import Mathlib

/-!
Verification of the lyric-timeline engine, fuzzy file matcher, playlist
engine and playback-mode resolver of the LED lyrics player.

The definitions below are shallow embeddings of the JavaScript player code
(`js/player.js`, whose text is embedded in `src/tests/test-helpers.mjs`
lines 191-3022, together with `js/config.js`).  Strings are modelled as
`List Char`, JS numbers as `ℚ` (exact rational arithmetic in place of IEEE
doubles), JS array indices as `Nat`/`Int` as each call site requires, and
fallible operations return `Option`.  `Array.prototype.sort` with a
consistent comparator is stable (ES2019), so it is modelled by the
canonical stable sort `List.insertionSort` with the comparator's
"a stays before b" relation.
-/

namespace LedLyrics

/-! ## Character classes and small string utilities -/

/-- JS regex `\d`, i.e. the ASCII digits `0`-`9`. -/
def isDigitChar (c : Char) : Bool := '0' ≤ c && c ≤ '9'

/-- Numeric value of one ASCII digit. -/
def digitVal (c : Char) : Nat := c.toNat - 48

/-- `parseInt` on a non-empty string of ASCII digits. -/
def digitsVal (ds : List Char) : Nat := ds.foldl (fun a c => 10 * a + digitVal c) 0

/-- The ASCII part of the JS `\s` class, also used by `String.prototype.trim`. -/
def isSpaceChar (c : Char) : Bool :=
  c = ' ' || c = '\t' || c = '\n' || c = '\r' || c = '\x0b' || c = '\x0c'

/-- `String.prototype.trim`: drop leading and trailing whitespace. -/
def trimChars (l : List Char) : List Char :=
  ((l.dropWhile isSpaceChar).reverse.dropWhile isSpaceChar).reverse

/-- `content.split('\n')`: split on every newline, keeping empty segments
(so the result is always non-empty). -/
def splitLines : List Char → List (List Char)
  | [] => [[]]
  | c :: rest =>
    match splitLines rest with
    | [] => [[c]]
    | l :: ls => if c = '\n' then [] :: l :: ls else (c :: l) :: ls

/-! ## The LRC parser (`parseLrc`, player.js)

```js
const match = line.match(/\[(\d+):(\d+)(?:\.(\d+))?\](.*)/);
```
The regex is matched at the leftmost position possible; since `\d`, `:`,
`.` and `]` are disjoint character classes, greedy matching never
backtracks into the digit groups, so maximal-munch scanning is exact. -/

/-- One parsed line.  The source stores the float
`time = minutes * 60 + seconds + centiseconds / 100`; we store the exact
value in centiseconds (`timeCs`, so `time = timeCs / 100`).  This encoding
is strictly monotone, so every comparison, sort and equality test on
`time` in the source agrees with the same operation on `timeCs`. -/
structure LyricEntry where
  timeCs : ℕ
  text : List Char
deriving DecidableEq

/-- The rational number of seconds denoted by a centisecond count. -/
def csQ (n : ℕ) : ℚ := (n : ℚ) / 100

/-- Try to match `(\d+):(\d+)(?:\.(\d+))?\](.*)` directly after a `[`.
Returns the three captured digit groups and the rest of the line. -/
def matchAfterBracket (r : List Char) :
    Option (List Char × List Char × Option (List Char) × List Char) :=
  let d1 := r.takeWhile isDigitChar
  if d1 = [] then none
  else
    match r.dropWhile isDigitChar with
    | ':' :: r2 =>
      let d2 := r2.takeWhile isDigitChar
      if d2 = [] then none
      else
        match r2.dropWhile isDigitChar with
        | ']' :: r4 => some (d1, d2, none, r4)
        | '.' :: r5 =>
          let d3 := r5.takeWhile isDigitChar
          if d3 = [] then none
          else
            match r5.dropWhile isDigitChar with
            | ']' :: r6 => some (d1, d2, some d3, r6)
            | _ => none
        | _ => none
    | _ => none

/-- `line.match(/\[(\d+):(\d+)(?:\.(\d+))?\](.*)/)`: scan left to right for
the first `[` from which the tag pattern matches. -/
def tagSearch : List Char → Option (List Char × List Char × Option (List Char) × List Char)
  | [] => none
  | c :: rest =>
    if c = '[' then
      match matchAfterBracket rest with
      | some res => some res
      | none => tagSearch rest
    else tagSearch rest

/-- `parseInt(match[3].padEnd(2, '0').slice(0, 2))`: right-pad the
fractional digits to two characters and truncate beyond two. -/
def centisOfFrac : Option (List Char) → Nat
  | none => 0
  | some d => digitsVal ((d ++ ['0']).take 2)

/-- The per-line body of `parseLrc`'s `forEach`: produce an entry for a
line matching the tag pattern, skip it (`none`) otherwise.  A line whose
seconds field is `≥ 60` throws inside the loop and is skipped as well; the
`isNaN`/negativity checks of the source can never fire on an all-digit
capture.  Empty trimmed text is replaced by the placeholder `♪`. -/
def parseLine (line : List Char) : Option LyricEntry :=
  match tagSearch line with
  | none => none
  | some (d1, d2, od3, rest) =>
    let minutes := digitsVal d1
    let seconds := digitsVal d2
    if 60 ≤ seconds then none
    else
      let cs := centisOfFrac od3
      let text := trimChars rest
      some ⟨(minutes * 60 + seconds) * 100 + cs,
            if text = [] then ['♪'] else text⟩

/-- `lyrics.sort((a, b) => a.time - b.time)`: stable ascending sort. -/
def sortByTime (l : List LyricEntry) : List LyricEntry :=
  l.insertionSort (fun a b => a.timeCs ≤ b.timeCs)

/-- `parseLrc(lrcContent)` (player.js).  The empty string is falsy and
throws (`none`); otherwise each line is matched, failures are skipped, and
the collected entries are sorted by time.  No merging of duplicate
timestamps and no `[offset:...]` handling is performed. -/
def parseLrc (content : List Char) : Option (List LyricEntry) :=
  if content = [] then none
  else some (sortByTime ((splitLines content).filterMap parseLine))

/-! ## The lyric cursor (`updateLyricsDisplay`, player.js)

The cursor logic of `updateLyricsDisplay` resolves the active line index
from `this.currentTime` and the memoized pair
`(lastLyricSearchIndex, lastLyricSearchTime)`.  Here the timeline is a
list of display times (`ℚ`, the source's float `time` field); the DOM
update that consumes the resolved index is outside the model. -/

/-- The memoized scan state of the cursor. -/
structure CursorState where
  lastLyricSearchIndex : Nat
  lastLyricSearchTime : ℚ
deriving DecidableEq

/-- The `for` loop of `updateLyricsDisplay`: starting at `i`, find the
first index whose time has been reached and whose successor (if any) has
not; `none` when the loop breaks without a hit. -/
def scanFrom (times : List ℚ) (t : ℚ) (i : Nat) : Option Nat :=
  if h : i < times.length then
    if times.get ⟨i, h⟩ ≤ t then
      if i = times.length - 1 then some i
      else if t < times.getD (i + 1) 0 then some i
      else scanFrom times t (i + 1)
    else none
  else none
termination_by times.length - i

/-- The cursor portion of `updateLyricsDisplay`: returns the active index
(`-1` when no line is active) and the updated memo.  An observed time
decrease resets the scan start to 0; the scan runs only once `t` has
reached the first line's time; on a hit the memoized index becomes the
hit.  With an empty timeline the source returns before touching the memo. -/
def updateLyricsDisplay (times : List ℚ) (st : CursorState) (t : ℚ) :
    Int × CursorState :=
  match times with
  | [] => (-1, st)
  | first :: _ =>
    let start := if t < st.lastLyricSearchTime then 0 else st.lastLyricSearchIndex
    let active := if first ≤ t then scanFrom times t start else none
    match active with
    | some i => ((i : Int), ⟨i, t⟩)
    | none => (-1, ⟨start, t⟩)

/-! ## Playlist catalog mutations (`reorderSongs`, `removeSong`, player.js)

JS arrays may hold `undefined` (e.g. `splice(i, 1)[0]` on an out-of-range
`i`), so catalog slots are modelled as `Option α`.  The observable state
is the song array together with `currentSongIndex` (an `Int`, `-1` when
nothing is selected). -/

structure PlaylistState (α : Type) where
  songs : List (Option α)
  currentSongIndex : Int
deriving DecidableEq

/-- `reorderSongs(fromIndex, toIndex)` (player.js).  Besides the
`fromIndex === toIndex` short-circuit there is no range check:
`splice(fromIndex, 1)[0]` yields `undefined` (`none`) when `fromIndex` is
past the end, and `splice(toIndex, 0, moved)` clamps `toIndex` to the
array length, which `take`/`drop` also do. -/
def reorderSongs (st : PlaylistState α) (fromIdx toIdx : Nat) : PlaylistState α :=
  if fromIdx = toIdx then st
  else
    let moved := st.songs.getD fromIdx none
    let removed := st.songs.eraseIdx fromIdx
    let songs2 := removed.take toIdx ++ moved :: removed.drop toIdx
    let cur := st.currentSongIndex
    let cur2 : Int :=
      if cur = (fromIdx : Int) then (toIdx : Int)
      else if (fromIdx : Int) < cur ∧ cur ≤ (toIdx : Int) then cur - 1
      else if cur < (fromIdx : Int) ∧ (toIdx : Int) ≤ cur then cur + 1
      else cur
    ⟨songs2, cur2⟩

/-- `removeSong(index)` (player.js).  Out-of-range indices return before
any mutation.  Removing the current song clears the selection; removing
an earlier song shifts the selection down; emptying the list clears the
selection as well.  The audio-element cleanup on the removed slot and the
DOM updates are outside the modelled state. -/
def removeSong (st : PlaylistState α) (index : Int) : PlaylistState α :=
  if index < 0 ∨ (st.songs.length : Int) ≤ index then st
  else
    let cur := st.currentSongIndex
    let cur2 : Int := if index = cur then -1 else if index < cur then cur - 1 else cur
    let songs2 := st.songs.eraseIdx index.toNat
    if songs2.length = 0 then ⟨songs2, -1⟩ else ⟨songs2, cur2⟩

/-! ## Playlist import (`importPlaylist`, `addSong`, player.js)

`importPlaylist` parses the JSON file, filters
`song.name && song.lyrics && Array.isArray(song.lyrics)`, aborts (catalog
untouched) when nothing survives, otherwise clears the playlist and adds
each survivor via `addSong`.  A raw JSON entry is modelled with its
dynamic truthiness made explicit: an empty `name` is falsy exactly like a
missing one, and `lyricsIsArray` records whether the `lyrics` field holds
an array (absent or non-array values both fail the conjunction).
The import copies each surviving entry's `lyrics` array without looking
inside it, so the lyric-line type is a parameter `L`; `RawLyric` is the
shape of a decoded JSON lyric object (`time` any JSON number, possibly
negative). -/

variable {L : Type}

/-- A decoded JSON lyric line as it appears in an imported playlist. -/
structure RawLyric where
  time : ℚ
  text : List Char
deriving DecidableEq

structure ImportSong (L : Type) where
  name : List Char
  lyricsIsArray : Bool
  lyrics : List L
  duration : Option ℚ
deriving DecidableEq

/-- A catalog entry as built by the import (`userMode` is defaulted to
`'auto'` by `addSong` and carries no information here). -/
structure CatalogSong (L : Type) where
  name : List Char
  lyrics : List L
  duration : ℚ
deriving DecidableEq

/-- `addSong(song)` (player.js): duplicate names are skipped, otherwise
the song is appended. -/
def addSong (catalog : List (CatalogSong L)) (s : CatalogSong L) : List (CatalogSong L) :=
  if catalog.any (fun e => e.name = s.name) then catalog else catalog ++ [s]

/-- The validation-and-add core of `importPlaylist` (player.js), applied
to the decoded `playlistData.songs` array.  `none` models the thrown
error (previous catalog untouched, import aborted); `songData.duration || 0`
defaults a missing duration. -/
def importPlaylist (entries : List (ImportSong L)) : Option (List (CatalogSong L)) :=
  let valid := entries.filter (fun s => s.name ≠ [] ∧ s.lyricsIsArray)
  if valid.length = 0 then none
  else
    some (valid.foldl
      (fun cat sd => addSong cat ⟨sd.name, sd.lyrics, sd.duration.getD 0⟩) [])

/-! ## The fuzzy matcher (`normalizeForMatching`, `levenshteinDistance`,
`calculateSimilarity`, `calculateMatchScore`, `findBestMatch`, player.js)

Scores are exact rationals in place of IEEE doubles. -/

/-- `name.replace(/\.[^/.]+$/, '')` (step 1 of `calculateMatchScore`):
strip a final `.` followed by one or more characters none of which is `.`
or `/`. -/
def stripExtStep1 (name : List Char) : List Char :=
  let r := name.reverse
  let ext := r.takeWhile (fun c => !(c = '.' || c = '/'))
  match r.drop ext.length with
  | '.' :: _ => if ext = [] then name else (r.drop (ext.length + 1)).reverse
  | _ => name

/-- `name.replace(/\.[^.]*$/, '')` (first step of `normalizeForMatching`):
strip a final `.` followed by zero or more non-`.` characters. -/
def stripExtNorm (name : List Char) : List Char :=
  let r := name.reverse
  let ext := r.takeWhile (fun c => !(c = '.'))
  match r.drop ext.length with
  | '.' :: _ => (r.drop (ext.length + 1)).reverse
  | _ => name

/-- `name.match(/^(\d+)/)`: the leading digit run, when non-empty. -/
def leadingDigits (name : List Char) : Option (List Char) :=
  let d := name.takeWhile isDigitChar
  if d = [] then none else some d

/-- The separator class `[-_\s]` of the matcher regexes (ASCII `\s`). -/
def isSepChar (c : Char) : Bool := c = '-' || c = '_' || isSpaceChar c

/-- `name.replace(/^\d+[-_\s]*/, '')`: drop a leading digit run and the
separators directly after it; with no leading digit the regex does not
match and the name is unchanged. -/
def dropLeadingNumber (name : List Char) : List Char :=
  if name.takeWhile isDigitChar = [] then name
  else (name.dropWhile isDigitChar).dropWhile isSepChar

/-- `normalizeForMatching(name)` (player.js): strip extension, strip a
numeric prefix, delete every remaining separator, lower-case, trim (the
trailing `.trim()` is a no-op after separator removal but is kept). -/
def normalizeForMatching (name : List Char) : List Char :=
  trimChars
    (((dropLeadingNumber (stripExtNorm name)).filter
        (fun c => !isSepChar c)).map Char.toLower)

/-- The dynamic-programming table of `levenshteinDistance(str1, str2)`
(player.js): `levMatrix s1 s2 i j` is `matrix[i][j]`, with `i` indexing
`str2` and `j` indexing `str1`.  The nested loop memoizes exactly this
recurrence. -/
def levMatrix (s1 s2 : List Char) : Nat → Nat → Nat
  | 0, j => j
  | i + 1, 0 => i + 1
  | i + 1, j + 1 =>
    if s2.getD i ' ' = s1.getD j ' ' then levMatrix s1 s2 i j
    else
      Nat.min (levMatrix s1 s2 i j + 1)
        (Nat.min (levMatrix s1 s2 (i + 1) j + 1) (levMatrix s1 s2 i (j + 1) + 1))
termination_by i j => (i, j)

/-- `levenshteinDistance(str1, str2)` (player.js): the bottom-right cell
`matrix[str2.length][str1.length]`. -/
def levenshteinDistance (s1 s2 : List Char) : Nat :=
  levMatrix s1 s2 s2.length s1.length

/-- `calculateSimilarity(str1, str2)` (player.js). -/
def calculateSimilarity (s1 s2 : List Char) : ℚ :=
  if s1 = s2 then 1
  else if s1.length = 0 ∨ s2.length = 0 then 0
  else
    let maxLength := Nat.max s1.length s2.length
    ((maxLength : ℚ) - levenshteinDistance s1 s2) / (maxLength : ℚ)

/-- The `scores` array built by `calculateMatchScore` after the step-1
short-circuit: the optional 0.95 normalized-equality score, the raw
similarity of the normalized names, and the optional 0.98-scaled
same-numeric-prefix score. -/
def matchScoreCandidates (songName targetName : List Char) : List ℚ :=
  let ns := normalizeForMatching songName
  let nt := normalizeForMatching targetName
  (if ns = nt ∧ 2 < ns.length then [(95 : ℚ) / 100] else [])
    ++ [calculateSimilarity ns nt]
    ++ (match leadingDigits songName, leadingDigits targetName with
        | some p, some q =>
          if p = q then
            [calculateSimilarity (normalizeForMatching (dropLeadingNumber songName))
                (normalizeForMatching (dropLeadingNumber targetName)) * ((98 : ℚ) / 100)]
          else []
        | _, _ => [])

/-- The length penalty of `calculateMatchScore`.  When both normalized
names are empty the source computes `0/0 = NaN`, `NaN < 0.5` is false and
the penalty is 1; the `maxLen ≠ 0` guard reproduces that. -/
def lengthPenalty (ns nt : List Char) : ℚ :=
  let maxLen := Nat.max ns.length nt.length
  let minLen := Nat.min ns.length nt.length
  if maxLen ≠ 0 ∧ (minLen : ℚ) / (maxLen : ℚ) < 1 / 2 then (8 : ℚ) / 10 else 1

/-- `calculateMatchScore(songName, targetName)` (player.js): 1.0 on
extension-stripped equality, otherwise the maximum candidate score times
the length penalty (the `scores.length === 0` guard of the source is dead
because the similarity score is always pushed, but is kept). -/
def calculateMatchScore (songName targetName : List Char) : ℚ :=
  if stripExtStep1 songName = stripExtStep1 targetName then 1
  else
    match matchScoreCandidates songName targetName with
    | [] => 0
    | x :: xs => xs.foldl max x * lengthPenalty (normalizeForMatching songName)
        (normalizeForMatching targetName)

/-- `findBestMatch(fileName)` (player.js): collect every song with a
positive score, sort the candidates descending by score
(`Array.prototype.sort` is stable, so equal scores keep catalog order),
and accept the head only when its score reaches 0.7. -/
def findBestMatch (songs : List (CatalogSong L)) (fileName : List Char) :
    Option (CatalogSong L) :=
  let candidates := songs.filter (fun s => 0 < calculateMatchScore s.name fileName)
  let sorted := candidates.insertionSort
    (fun a b => calculateMatchScore b.name fileName ≤ calculateMatchScore a.name fileName)
  match sorted with
  | [] => none
  | best :: _ =>
    if (7 : ℚ) / 10 ≤ calculateMatchScore best.name fileName then some best else none

/-- Specification-side selection rule (§4.3 step 4 of the spec): the
first-encountered entry attaining the highest score.  A later entry
replaces the current best only when its score is strictly greater. -/
def firstMax (songs : List (CatalogSong L)) (fileName : List Char) :
    Option (CatalogSong L) :=
  match songs with
  | [] => none
  | s :: rest =>
    match firstMax rest fileName with
    | none => some s
    | some b =>
      if calculateMatchScore s.name fileName < calculateMatchScore b.name fileName
      then some b else some s

/-- Specification-side best match: the first-encountered highest scorer,
accepted only at score ≥ 0.7. -/
def bestMatchSpec (songs : List (CatalogSong L)) (fileName : List Char) :
    Option (CatalogSong L) :=
  match firstMax songs fileName with
  | none => none
  | some b =>
    if (7 : ℚ) / 10 ≤ calculateMatchScore b.name fileName then some b else none

/-! ## Playback modes (`getAvailableModes`, `getEffectiveMode`,
`getAutoDetectedMode`, player.js) -/

inductive PlayMode where
  | lyrics
  | audio
  | sync
deriving DecidableEq

/-- The value of the dynamic `userMode` field: absent (defaulted to
`'auto'` by `song.userMode || 'auto'`), the string `'auto'`, one of the
three concrete mode strings, or any other string (never equal to
`'auto'` and never contained in the available-modes array). -/
inductive UserModeField where
  | absent
  | auto
  | mode (m : PlayMode)
  | other
deriving DecidableEq

/-- The fields of the dynamic song object read by the mode resolvers:
`song.lyrics && song.lyrics.length > 0` (a missing lyrics field and an
empty array both fail this test, so lyrics are kept as a plain list),
and the truthiness of `song.audioFile` and `song.audioElement`. -/
structure ModeSong where
  lyrics : List LyricEntry
  audioFile : Bool
  audioElement : Bool
  userMode : UserModeField
deriving DecidableEq

/-- `getAvailableModes(song)` (player.js): `'lyrics'` needs a non-empty
lyric list, `'audio'` needs both `song.audioFile` and
`song.audioElement`, `'sync'` needs both of those plus lyrics. -/
def getAvailableModes (s : ModeSong) : List PlayMode :=
  (if 0 < s.lyrics.length then [PlayMode.lyrics] else [])
    ++ (if s.audioFile && s.audioElement then
          PlayMode.audio :: (if 0 < s.lyrics.length then [PlayMode.sync] else [])
        else [])

/-- `getAutoDetectedMode(song)` (player.js): decided by `song.audioFile`
alone (without `song.audioElement`) and the lyric list. -/
def getAutoDetectedMode (s : ModeSong) : PlayMode :=
  if s.audioFile && 0 < s.lyrics.length then PlayMode.sync
  else if s.audioFile then PlayMode.audio
  else PlayMode.lyrics

/-- `getEffectiveMode(song)` (player.js): `'auto'` (or a missing
`userMode`) auto-detects; a concrete user mode is used only when
available, otherwise auto-detect is the fallback (as for any other
string). -/
def getEffectiveMode (s : ModeSong) : PlayMode :=
  match s.userMode with
  | .absent => getAutoDetectedMode s
  | .auto => getAutoDetectedMode s
  | .mode m => if m ∈ getAvailableModes s then m else getAutoDetectedMode s
  | .other => getAutoDetectedMode s

/-! ## C1: duplicate timestamps are not merged -/

/-- C1.  The claim states that lines sharing a timestamp are merged into
one entry with the texts joined by `" / "`, and that the output never
holds two entries with equal time.  On the spec's own determinism input
`"[00:01.00]first\n[00:01.00]second\n[00:02.00]third"` the parser instead
returns three entries, two of them sharing time 1 s (100 cs): `parseLrc`
sorts but never merges (`CONFIG.LRC.MERGE_DUPLICATES` is declared and
never read), contradicting the repository's own test
`parseLrc merges duplicate timestamps` (utils.test.mjs).  The trailing
conjuncts read the centisecond encoding back as seconds. -/
theorem C1_duplicate_times_not_merged :
    parseLrc ("[00:01.00]first\n[00:01.00]second\n[00:02.00]third".toList) =
      some [⟨100, "first".toList⟩, ⟨100, "second".toList⟩, ⟨200, "third".toList⟩] ∧
    csQ 100 = 1 ∧ csQ 200 = 2 :=
  ⟨by decide, by norm_num [csQ], by norm_num [csQ]⟩

/-! ## C3: the `[offset:...]` tag is ignored -/

/-- C3.  The claim states `[offset:1000]` shifts both lines by one second
(to 2 s and 3 s).  The offset line does not match the timestamp regex and
is silently skipped, and no other offset handling exists
(`CONFIG.LRC.APPLY_OFFSET` is declared and never read): the times remain
1 s and 2 s (100 and 200 cs), contradicting the repository's own test
`parseLrc applies offset metadata` (utils.test.mjs). -/
theorem C3_offset_tag_ignored :
    parseLrc ("[offset:1000]\n[00:01.00]first\n[00:02.00]second".toList) =
      some [⟨100, "first".toList⟩, ⟨200, "second".toList⟩] ∧
    csQ 100 = 1 ∧ csQ 200 = 2 :=
  ⟨by decide, by norm_num [csQ], by norm_num [csQ]⟩

/-! ## C8: seconds bound is 60, not 100 -/

/-- C8, counterexample.  The line `[00:75]x` matches the tag pattern with
seconds `75 < 100`, so the claim demands the entry
`{time: 75, text: "x"}` (7500 cs).  The parser's `seconds >= 60` check
throws on it and the line is skipped: the output is empty. -/
theorem C8_counterexample :
    parseLrc ("[00:75]x".toList) ≠ some [⟨7500, "x".toList⟩] ∧
    parseLrc ("[00:75]x".toList) = some [] :=
  ⟨by decide, by decide⟩

/-! ## C5: only `removeSong` validates its index -/

/-- C5, counterexample.  `reorderSongs(2, 0)` on a two-song catalog with
current index 0 is out of range, yet it is not a no-op: `splice(2, 1)[0]`
is `undefined`, which is then spliced in at position 0, and the current
index is shifted to 1. -/
theorem C5_counterexample :
    reorderSongs (⟨[some 0, some 1], 0⟩ : PlaylistState ℕ) 2 0 =
      ⟨[none, some 0, some 1], 1⟩ ∧
    reorderSongs (⟨[some 0, some 1], 0⟩ : PlaylistState ℕ) 2 0 ≠
      ⟨[some 0, some 1], 0⟩ :=
  ⟨by decide, by decide⟩

/-! ## C4: audio availability needs both fields -/

/-- C4, counterexample.  A song with `audioFile` set but `audioElement`
cleared (the state `switchToSong` leaves on the previous song) and one
lyric line: `'audio'` is not in the available modes even though the song
has a matched audio file, and the effective mode auto-detects to
`'sync'` (not `'lyrics'`) because `getAutoDetectedMode` tests
`audioFile` alone — refuting the claimed availability iff under either
reading of "audio reference". -/
theorem C4_counterexample :
    ((⟨[⟨0, ['a']⟩], true, false, .absent⟩ : ModeSong).audioFile = true) ∧
    getAvailableModes ⟨[⟨0, ['a']⟩], true, false, .absent⟩ = [PlayMode.lyrics] ∧
    getEffectiveMode ⟨[⟨0, ['a']⟩], true, false, .absent⟩ = PlayMode.sync :=
  ⟨by decide, by decide, by decide⟩

/-! ## C2: import validation is name/array only -/

/-- C2, counterexample.  A playlist with an entry whose `lyrics` is the
empty array and an entry whose lyric lines are unsorted with a negative
time: both survive import unchanged — no empty-array rejection, no
per-line filtering, no sorting. -/
theorem C2_counterexample :
    importPlaylist
        [⟨"a".toList, true, ([] : List RawLyric), none⟩,
         ⟨"b".toList, true, [⟨2, ['x']⟩, ⟨-1, ['y']⟩], some 5⟩] =
      some [⟨"a".toList, [], 0⟩, ⟨"b".toList, [⟨2, ['x']⟩, ⟨-1, ['y']⟩], 5⟩] :=
  by decide

/-! ## C6: backward seek is equivalent to a fresh resolution -/

/-- The updated memo always records the queried time (on a non-empty
timeline). -/
theorem updateLyricsDisplay_lastTime (f : ℚ) (rest : List ℚ) (st : CursorState) (t : ℚ) :
    ((updateLyricsDisplay (f :: rest) st t).2).lastLyricSearchTime = t := by
  simp only [updateLyricsDisplay]
  split <;> rfl

/-- C6.  Resolving at `t1` and then at `t0 < t1` yields the same active
index as a single fresh resolution at `t0` with no memoized state: the
observed time decrease resets the scan start to 0, exactly the scan start
of a fresh cursor. -/
theorem C6_backward_seek_fresh (times : List ℚ) (st : CursorState) (t0 t1 : ℚ)
    (h : t0 < t1) :
    (updateLyricsDisplay times (updateLyricsDisplay times st t1).2 t0).1 =
      (updateLyricsDisplay times ⟨0, 0⟩ t0).1 := by
  cases times with
  | nil => rfl
  | cons f rest =>
    have hst := updateLyricsDisplay_lastTime f rest st t1
    set st1 := (updateLyricsDisplay (f :: rest) st t1).2
    simp only [updateLyricsDisplay, hst, if_pos h, ite_self]

/-- C6, witness: timeline `[1, 2]`, stale memo `⟨1, 5⟩`, backward seek
from `t1 = 4` to `t0 = 1`. -/
theorem C6_backward_seek_fresh_witness :
    (1 : ℚ) < 4 ∧
    (updateLyricsDisplay [1, 2] (updateLyricsDisplay [1, 2] ⟨1, 5⟩ 4).2 1).1 =
      (updateLyricsDisplay [1, 2] ⟨0, 0⟩ 1).1 :=
  ⟨by norm_num, C6_backward_seek_fresh [1, 2] ⟨1, 5⟩ 1 4 (by norm_num)⟩

/-- C5, amended: `removeSong` with an out-of-range index is a true no-op,
and the only index validation `reorderSongs` performs is the
`fromIndex === toIndex` short-circuit. -/
theorem C5_amended {α : Type} (st : PlaylistState α) (i : Int) (j : Nat)
    (h : i < 0 ∨ (st.songs.length : Int) ≤ i) :
    removeSong st i = st ∧ reorderSongs st j j = st := by
  constructor
  · rw [removeSong, if_pos h]
  · rw [reorderSongs, if_pos rfl]

/-- C5, witness: a one-song catalog, remove at index 5, reorder 0 → 0. -/
theorem C5_amended_witness :
    ((5 : Int) < 0 ∨ (((⟨[some 3], 0⟩ : PlaylistState ℕ).songs.length : Int) ≤ 5)) ∧
    removeSong (⟨[some 3], 0⟩ : PlaylistState ℕ) 5 = ⟨[some 3], 0⟩ ∧
    reorderSongs (⟨[some 3], 0⟩ : PlaylistState ℕ) 0 0 = ⟨[some 3], 0⟩ :=
  ⟨by decide, (C5_amended ⟨[some 3], 0⟩ 5 0 (by decide)).1,
    (C5_amended ⟨[some 3], 0⟩ 5 0 (by decide)).2⟩

/-- C4, amended: `'lyrics'` is available iff the song has a lyric line;
`'audio'` is available iff both `audioFile` and `audioElement` are
present; `'sync'` iff additionally a lyric line exists; and when
`audioFile` is absent the effective mode is always `'lyrics'`. -/
theorem C4_amended (s : ModeSong) :
    (PlayMode.lyrics ∈ getAvailableModes s ↔ s.lyrics ≠ []) ∧
    (PlayMode.audio ∈ getAvailableModes s ↔ (s.audioFile = true ∧ s.audioElement = true)) ∧
    (PlayMode.sync ∈ getAvailableModes s ↔
      (s.audioFile = true ∧ s.audioElement = true ∧ s.lyrics ≠ [])) ∧
    (s.audioFile = false → getEffectiveMode s = PlayMode.lyrics) := by
  obtain ⟨lyr, af, ae, um⟩ := s
  rcases um with _ | _ | m | _ <;> try cases m
  all_goals
    cases af <;> cases ae <;> cases lyr <;>
      simp [getAvailableModes, getEffectiveMode, getAutoDetectedMode]

/-- C4, witness for the amended claim: a song with no audio file resolves
to `'lyrics'`. -/
theorem C4_amended_witness :
    ((⟨[], false, false, .absent⟩ : ModeSong).audioFile = false) ∧
    getEffectiveMode (⟨[], false, false, .absent⟩ : ModeSong) = PlayMode.lyrics :=
  ⟨rfl, (C4_amended ⟨[], false, false, .absent⟩).2.2.2 rfl⟩

/-! ## C8, amended: seconds below 60 parse by the stated formula -/

/-- `insertionSort` permutes, so sorting preserves membership. -/
theorem mem_sortByTime {e : LyricEntry} {l : List LyricEntry} :
    e ∈ sortByTime l ↔ e ∈ l :=
  (List.perm_insertionSort _ l).mem_iff

/-- C8, amended (seconds bound corrected from 100 to 60): every line of
the input that matches the tag pattern with seconds `< 60` contributes
the entry `minutes*60 + seconds + hundredths/100` (stored in
centiseconds), with the fraction right-padded to two digits and truncated
beyond two by `centisOfFrac`; the final conjunct restates the stored
centisecond count as the claim's formula in seconds. -/
theorem C8_amended (content line d1 d2 : List Char) (od3 : Option (List Char))
    (rest : List Char) (hmem : line ∈ splitLines content)
    (htag : tagSearch line = some (d1, d2, od3, rest))
    (hsec : digitsVal d2 < 60) :
    ∃ l, parseLrc content = some l ∧
      (⟨(digitsVal d1 * 60 + digitsVal d2) * 100 + centisOfFrac od3,
        if trimChars rest = [] then ['♪'] else trimChars rest⟩ : LyricEntry) ∈ l ∧
      csQ ((digitsVal d1 * 60 + digitsVal d2) * 100 + centisOfFrac od3) =
        (digitsVal d1 : ℚ) * 60 + digitsVal d2 + (centisOfFrac od3 : ℚ) / 100 := by
  have hcne : content ≠ [] := by
    intro hc
    subst hc
    simp only [splitLines, List.mem_singleton] at hmem
    subst hmem
    simp [tagSearch] at htag
  have hline : parseLine line =
      some ⟨(digitsVal d1 * 60 + digitsVal d2) * 100 + centisOfFrac od3,
        if trimChars rest = [] then ['♪'] else trimChars rest⟩ := by
    rw [parseLine, htag]
    simp only [if_neg (Nat.not_le.mpr hsec)]
  refine ⟨_, by rw [parseLrc, if_neg hcne], ?_, ?_⟩
  · exact mem_sortByTime.mpr (List.mem_filterMap.mpr ⟨line, hmem, hline⟩)
  · rw [csQ]
    push_cast
    ring

/-- C8, amended claim's witness: the line `[00:01.5]hi` inside a two-line
file parses to 1.5 s (150 cs). -/
theorem C8_amended_witness :
    ("[00:01.5]hi".toList ∈ splitLines ("[00:01.5]hi\nplain".toList)) ∧
    tagSearch ("[00:01.5]hi".toList) =
      some (['0', '0'], ['0', '1'], some ['5'], ['h', 'i']) ∧
    digitsVal ['0', '1'] < 60 ∧
    (∃ l, parseLrc ("[00:01.5]hi\nplain".toList) = some l ∧
      (⟨(digitsVal ['0', '0'] * 60 + digitsVal ['0', '1']) * 100 + centisOfFrac (some ['5']),
        if trimChars ['h', 'i'] = [] then ['♪'] else trimChars ['h', 'i']⟩ : LyricEntry) ∈ l ∧
      csQ ((digitsVal ['0', '0'] * 60 + digitsVal ['0', '1']) * 100 + centisOfFrac (some ['5'])) =
        (digitsVal ['0', '0'] : ℚ) * 60 + digitsVal ['0', '1'] +
          (centisOfFrac (some ['5']) : ℚ) / 100) :=
  ⟨by decide, by decide, by decide,
    C8_amended ("[00:01.5]hi\nplain".toList) ("[00:01.5]hi".toList)
      ['0', '0'] ['0', '1'] (some ['5']) ['h', 'i']
      (by decide) (by decide) (by decide)⟩

/-! ## C2, amended: import keeps surviving entries' lyrics verbatim -/

/-- Membership in the `addSong` fold: every catalog entry either was in
the accumulator or was built from one of the folded import entries. -/
theorem mem_foldl_addSong (valid : List (ImportSong L)) :
    ∀ (cat0 : List (CatalogSong L)) (s : CatalogSong L),
      s ∈ valid.foldl
        (fun cat sd => addSong cat ⟨sd.name, sd.lyrics, sd.duration.getD 0⟩) cat0 →
      s ∈ cat0 ∨ ∃ e ∈ valid,
        e.name = s.name ∧ e.lyrics = s.lyrics ∧ s.duration = e.duration.getD 0 := by
  induction valid with
  | nil => intro cat0 s hs; exact Or.inl hs
  | cons e restE ih =>
    intro cat0 s hs
    rcases ih _ s hs with hacc | ⟨e2, he2, hprops⟩
    · simp only [addSong] at hacc
      split at hacc
      · exact Or.inl hacc
      · rcases List.mem_append.mp hacc with h | h
        · exact Or.inl h
        · rw [List.mem_singleton] at h
          subst h
          exact Or.inr ⟨e, List.mem_cons_self e restE, rfl, rfl, rfl⟩
    · exact Or.inr ⟨e2, List.mem_cons_of_mem e he2, hprops⟩

/-- C2, amended: the import rejects exactly the entries whose `name` is
missing/empty or whose `lyrics` field is not an array (an empty lyrics
array is accepted); it fails only when no entry survives; and every
catalog entry built by it carries the lyrics of a surviving raw entry
verbatim — no per-line validation and no sorting. -/
theorem C2_amended (entries : List (ImportSong L)) :
    (importPlaylist entries = none ↔
      ∀ e ∈ entries, e.name = [] ∨ e.lyricsIsArray = false) ∧
    ∀ cat, importPlaylist entries = some cat →
      ∀ s ∈ cat, ∃ e ∈ entries,
        e.name = s.name ∧ e.lyrics = s.lyrics ∧ s.duration = e.duration.getD 0 ∧
        e.name ≠ [] ∧ e.lyricsIsArray = true := by
  constructor
  · rw [importPlaylist]
    split <;> rename_i hcond
    · simp only [true_iff]
      rw [List.length_eq_zero, List.filter_eq_nil_iff] at hcond
      intro e he
      have h : ¬(e.name ≠ [] ∧ e.lyricsIsArray = true) := by simpa using hcond e he
      by_cases hn : e.name = []
      · exact Or.inl hn
      · right
        cases hb : e.lyricsIsArray
        · rfl
        · exact absurd ⟨hn, hb⟩ h
    · simp only [reduceCtorEq, false_iff, not_forall]
      rw [List.length_eq_zero] at hcond
      rcases List.exists_mem_of_ne_nil _ hcond with ⟨e, he⟩
      have hp := List.of_mem_filter he
      simp only [decide_eq_true_eq] at hp
      refine ⟨e, List.mem_of_mem_filter he, ?_⟩
      push_neg
      exact ⟨hp.1, by simp [hp.2]⟩
  · intro cat hcat s hs
    rw [importPlaylist] at hcat
    split at hcat
    · exact absurd hcat (by simp)
    · rcases mem_foldl_addSong _ [] s (by injection hcat with h; rw [h]; exact hs) with
        h | ⟨e, he, h1, h2, h3⟩
      · simp at h
      · have hp := List.of_mem_filter he
        simp only [decide_eq_true_eq] at hp
        exact ⟨e, List.mem_of_mem_filter he, h1, h2, h3, hp.1, hp.2⟩

/-- C2, amended claim's witness: in the counterexample playlist the `"b"`
entry reaches the catalog with its unsorted, negative-time lyric lines
verbatim. -/
theorem C2_amended_witness :
    importPlaylist
        [⟨"a".toList, true, ([] : List RawLyric), none⟩,
         ⟨"b".toList, true, [⟨2, ['x']⟩, ⟨-1, ['y']⟩], some 5⟩] =
      some [⟨"a".toList, [], 0⟩, ⟨"b".toList, [⟨2, ['x']⟩, ⟨-1, ['y']⟩], 5⟩] ∧
    ∃ e ∈ ([⟨"a".toList, true, ([] : List RawLyric), none⟩,
            ⟨"b".toList, true, [⟨2, ['x']⟩, ⟨-1, ['y']⟩], some 5⟩] :
        List (ImportSong RawLyric)),
      e.name = (⟨"b".toList, [⟨2, ['x']⟩, ⟨-1, ['y']⟩], 5⟩ : CatalogSong RawLyric).name ∧
      e.lyrics = (⟨"b".toList, [⟨2, ['x']⟩, ⟨-1, ['y']⟩], 5⟩ : CatalogSong RawLyric).lyrics ∧
      (⟨"b".toList, [⟨2, ['x']⟩, ⟨-1, ['y']⟩], 5⟩ : CatalogSong RawLyric).duration =
        e.duration.getD 0 ∧
      e.name ≠ [] ∧ e.lyricsIsArray = true :=
  ⟨by decide,
    (C2_amended
        [⟨"a".toList, true, ([] : List RawLyric), none⟩,
         ⟨"b".toList, true, [⟨2, ['x']⟩, ⟨-1, ['y']⟩], some 5⟩]).2
      [⟨"a".toList, [], 0⟩, ⟨"b".toList, [⟨2, ['x']⟩, ⟨-1, ['y']⟩], 5⟩]
      (by decide)
      ⟨"b".toList, [⟨2, ['x']⟩, ⟨-1, ['y']⟩], 5⟩
      (by decide)⟩

/-! ## C9: in-range reorders preserve the catalog and the current track -/

/-- Indexing the array produced by `splice(to, 0, m)` after the removal:
positions before `t` are unchanged, position `t` holds the inserted
element, later positions shift up by one. -/
theorem getElem?_spliceIn {β : Type} (R : List β) (m : β) (t k : Nat)
    (htR : t ≤ R.length) :
    (R.take t ++ m :: R.drop t)[k]? =
      if k < t then R[k]? else if k = t then some m else R[k - 1]? := by
  have hlen : (R.take t).length = t := by
    simp [List.length_take, Nat.min_eq_left htR]
  rcases Nat.lt_trichotomy k t with hk | hk | hk
  · rw [List.getElem?_append_left (by omega), List.getElem?_take_of_lt hk, if_pos hk]
  · subst hk
    rw [List.getElem?_append_right (by omega), hlen]
    simp
  · rw [List.getElem?_append_right (by omega), hlen, if_neg (by omega), if_neg (by omega)]
    have hsub : k - t = (k - t - 1) + 1 := by omega
    rw [hsub, List.getElem?_cons_succ, List.getElem?_drop]
    congr 1
    omega

/-- C9: for in-range `fromIndex`, `toIndex` the reorder permutes the
catalog (the multiset of tracks is unchanged), and when the current index
is valid, the adjusted current index addresses the very track that was
current before the move. -/
theorem C9_reorder_invariant {α : Type} (st : PlaylistState α) (f t : Nat)
    (hf : f < st.songs.length) (ht : t < st.songs.length) :
    (reorderSongs st f t).songs.Perm st.songs ∧
    (0 ≤ st.currentSongIndex → st.currentSongIndex < (st.songs.length : Int) →
      (reorderSongs st f t).songs[(reorderSongs st f t).currentSongIndex.toNat]? =
        st.songs[st.currentSongIndex.toNat]?) := by
  by_cases hft : f = t
  · subst hft
    rw [reorderSongs, if_pos rfl]
    exact ⟨List.Perm.refl _, fun _ _ => rfl⟩
  · obtain ⟨songs, cur⟩ := st
    simp only [reorderSongs, if_neg hft]
    dsimp only at hf ht ⊢
    have hm : songs.getD f none = songs[f] := by
      simp [List.getD_eq_getElem?_getD, List.getElem?_eq_getElem hf]
    have hRlen : (songs.eraseIdx f).length = songs.length - 1 := by
      rw [List.length_eraseIdx]
      simp [hf]
    have htR : t ≤ (songs.eraseIdx f).length := by omega
    have hdecomp : songs = songs.take f ++ songs[f] :: songs.drop (f + 1) := by
      conv_lhs => rw [← List.take_append_drop f songs]
      rw [List.getElem_cons_drop songs f hf]
    constructor
    · refine List.perm_middle.trans ?_
      rw [List.take_append_drop, hm, List.eraseIdx_eq_take_drop_succ]
      conv_rhs => rw [hdecomp]
      exact List.perm_middle.symm
    · intro h0 hlt
      have hcur : cur = (cur.toNat : Int) := (Int.toNat_of_nonneg h0).symm
      set c := cur.toNat with hc
      by_cases h1 : cur = (f : Int)
      · rw [if_pos h1]
        have hcf : c = f := by omega
        have hkt : ((t : Int)).toNat = t := by omega
        rw [hkt, getElem?_spliceIn _ _ _ _ htR, if_neg (by omega), if_pos rfl, hm,
          hcf, List.getElem?_eq_getElem hf]
      · rw [if_neg h1]
        by_cases h2 : (f : Int) < cur ∧ cur ≤ (t : Int)
        · rw [if_pos h2]
          have hk : (cur - 1).toNat = c - 1 := by omega
          have hcb : f < c ∧ c ≤ t := by omega
          rw [hk, getElem?_spliceIn _ _ _ _ htR, if_pos (by omega),
            List.getElem?_eraseIdx_of_ge _ _ _ (by omega)]
          congr 1
          omega
        · rw [if_neg h2]
          by_cases h3 : cur < (f : Int) ∧ (t : Int) ≤ cur
          · rw [if_pos h3]
            have hk : (cur + 1).toNat = c + 1 := by omega
            have hcb : c < f ∧ t ≤ c := by omega
            rw [hk, getElem?_spliceIn _ _ _ _ htR, if_neg (by omega), if_neg (by omega)]
            have hsub : c + 1 - 1 = c := by omega
            rw [hsub, List.getElem?_eraseIdx_of_lt _ _ _ (by omega)]
          · rw [if_neg h3]
            have hcases : (c < f ∧ c < t) ∨ (f < c ∧ t < c) := by omega
            rcases hcases with ⟨hcf, hct⟩ | ⟨hcf, hct⟩
            · rw [getElem?_spliceIn _ _ _ _ htR, if_pos hct,
                List.getElem?_eraseIdx_of_lt _ _ _ hcf]
            · rw [getElem?_spliceIn _ _ _ _ htR, if_neg (by omega), if_neg (by omega),
                List.getElem?_eraseIdx_of_ge _ _ _ (by omega)]
              congr 1
              omega

/-- C9, witness: move song 0 to position 2 in a three-song catalog whose
current song is the last one. -/
theorem C9_reorder_invariant_witness :
    ((0 : Nat) < (([some 10, some 20, some 30] : List (Option ℕ)).length)) ∧
    ((2 : Nat) < (([some 10, some 20, some 30] : List (Option ℕ)).length)) ∧
    (reorderSongs (⟨[some 10, some 20, some 30], 2⟩ : PlaylistState ℕ) 0 2).songs.Perm
      [some 10, some 20, some 30] ∧
    (reorderSongs (⟨[some 10, some 20, some 30], 2⟩ : PlaylistState ℕ) 0
        2).songs[(reorderSongs (⟨[some 10, some 20, some 30], 2⟩ : PlaylistState ℕ) 0
        2).currentSongIndex.toNat]? =
      ([some 10, some 20, some 30] : List (Option ℕ))[(2 : Int).toNat]? := by
  have h := C9_reorder_invariant (⟨[some 10, some 20, some 30], 2⟩ : PlaylistState ℕ) 0 2
    (by decide) (by decide)
  exact ⟨by decide, by decide, h.1, h.2 (by decide) (by decide)⟩

/-! ## C7: best-match selection -/

/-- Head of an ordered insert: the inserted element wins exactly when the
comparator lets it stay in front. -/
theorem head?_orderedInsert {β : Type} (r : β → β → Prop) [DecidableRel r] (a : β) :
    ∀ l : List β, (l.orderedInsert r a).head? =
      match l with
      | [] => some a
      | b :: _ => if r a b then some a else some b := by
  intro l
  cases l with
  | nil => rfl
  | cons b tl =>
    rw [List.orderedInsert]
    split <;> simp_all

/-- The head of the stable descending sort used by `findBestMatch` is the
first-encountered element of maximal score. -/
theorem head?_insertionSort_eq_firstMax (fileName : List Char) :
    ∀ songs : List (CatalogSong L),
      (songs.insertionSort (fun a b =>
          calculateMatchScore b.name fileName ≤ calculateMatchScore a.name fileName)).head? =
        firstMax songs fileName := by
  intro songs
  induction songs with
  | nil => rfl
  | cons s rest ih =>
    rw [List.insertionSort, firstMax, ← ih]
    cases h : rest.insertionSort (fun a b =>
        calculateMatchScore b.name fileName ≤ calculateMatchScore a.name fileName) with
    | nil => rfl
    | cons b tl =>
      rw [head?_orderedInsert]
      simp only [List.head?_cons]
      rcases lt_or_le (calculateMatchScore s.name fileName)
          (calculateMatchScore b.name fileName) with hlt | hle
      · rw [if_neg (not_le.mpr hlt), if_pos hlt]
      · rw [if_pos hle, if_neg (not_lt.mpr hle)]

/-- Filtering out the non-positive scores commutes with first-max
selection up to the positivity gate. -/
theorem firstMax_filter_pos (fileName : List Char) :
    ∀ songs : List (CatalogSong L),
      firstMax (songs.filter
          (fun s => 0 < calculateMatchScore s.name fileName)) fileName =
        match firstMax songs fileName with
        | none => none
        | some b =>
          if 0 < calculateMatchScore b.name fileName then some b else none := by
  intro songs
  induction songs with
  | nil => rfl
  | cons s rest ih =>
    by_cases hp : 0 < calculateMatchScore s.name fileName
    · rw [List.filter_cons_of_pos (by simpa using hp)]
      simp only [firstMax, ih]
      cases hfm : firstMax rest fileName with
      | none => simp [hp]
      | some b =>
        by_cases hb : 0 < calculateMatchScore b.name fileName
        · by_cases hsb : calculateMatchScore s.name fileName <
              calculateMatchScore b.name fileName
          · simp [hb, hsb]
          · simp [hb, hsb, hp]
        · have hsb : ¬ calculateMatchScore s.name fileName <
              calculateMatchScore b.name fileName := by
            intro hcon
            exact hb (lt_trans hp hcon)
          simp [hb, hsb, hp]
    · rw [List.filter_cons_of_neg (by simpa using hp)]
      rw [ih]
      simp only [firstMax]
      cases hfm : firstMax rest fileName with
      | none => simp [hp]
      | some b =>
        by_cases hsb : calculateMatchScore s.name fileName <
            calculateMatchScore b.name fileName
        · simp [hsb]
        · have hb : ¬ 0 < calculateMatchScore b.name fileName := by
            intro hcon
            exact hp (lt_of_lt_of_le hcon (not_lt.mp hsb))
          simp [hsb, hb, hp]

/-- C7: `findBestMatch` returns exactly the spec's selection — the
first-encountered catalog entry of maximal final score, accepted only
when that score reaches 0.7, `none` otherwise (in particular `none`
whenever every score is below the threshold, even for the best
candidate). -/
theorem C7_best_match_selection (songs : List (CatalogSong L)) (fileName : List Char) :
    findBestMatch songs fileName = bestMatchSpec songs fileName := by
  rw [findBestMatch, bestMatchSpec]
  have hhead := head?_insertionSort_eq_firstMax fileName
    (songs.filter (fun s => 0 < calculateMatchScore s.name fileName))
  rw [firstMax_filter_pos] at hhead
  cases hs : (songs.filter
      (fun s => 0 < calculateMatchScore s.name fileName)).insertionSort
      (fun a b =>
        calculateMatchScore b.name fileName ≤ calculateMatchScore a.name fileName) with
  | nil =>
    rw [hs] at hhead
    cases hfm : firstMax songs fileName with
    | none => rfl
    | some b =>
      rw [hfm] at hhead
      dsimp only at hhead ⊢
      have hb : ¬ 0 < calculateMatchScore b.name fileName := by
        intro hcon
        rw [if_pos hcon] at hhead
        exact absurd hhead (by simp)
      have hthr : ¬ (7 : ℚ) / 10 ≤ calculateMatchScore b.name fileName := by
        intro hcon
        exact hb (lt_of_lt_of_le (by norm_num) hcon)
      rw [if_neg hthr]
  | cons best tl =>
    rw [hs] at hhead
    cases hfm : firstMax songs fileName with
    | none =>
      rw [hfm] at hhead
      exact absurd hhead (by simp)
    | some b =>
      rw [hfm] at hhead
      dsimp only at hhead ⊢
      by_cases hb : 0 < calculateMatchScore b.name fileName
      · rw [if_pos hb] at hhead
        have hbb : best = b := by
          simpa using hhead
        rw [hbb]
      · rw [if_neg hb] at hhead
        exact absurd hhead (by simp)

/-! ## C10: the match scorer is symmetric -/

/-- Swapping the two strings transposes the Levenshtein table. -/
theorem levMatrix_symm (s1 s2 : List Char) :
    ∀ i j, levMatrix s1 s2 i j = levMatrix s2 s1 j i := by
  intro i
  induction i with
  | zero =>
    intro j
    cases j with
    | zero => simp [levMatrix]
    | succ j => simp [levMatrix]
  | succ i ih =>
    intro j
    induction j with
    | zero => simp [levMatrix]
    | succ j ihj =>
      simp only [levMatrix]
      by_cases h : s2.getD i ' ' = s1.getD j ' '
      · rw [if_pos h, if_pos h.symm, ih j]
      · rw [if_neg h, if_neg (fun hh => h hh.symm), ih j, ih (j + 1), ihj]
        congr 1
        exact Nat.min_comm _ _

/-- `levenshteinDistance` is symmetric. -/
theorem levenshteinDistance_symm (a b : List Char) :
    levenshteinDistance a b = levenshteinDistance b a := by
  rw [levenshteinDistance, levenshteinDistance, levMatrix_symm]

/-- `calculateSimilarity` is symmetric. -/
theorem calculateSimilarity_symm (a b : List Char) :
    calculateSimilarity a b = calculateSimilarity b a := by
  rw [calculateSimilarity, calculateSimilarity]
  by_cases h : a = b
  · rw [if_pos h, if_pos h.symm]
  · have hba : ¬ b = a := fun hh => h hh.symm
    rw [if_neg h, if_neg hba]
    by_cases hz : a.length = 0 ∨ b.length = 0
    · rw [if_pos hz, if_pos (Or.symm hz)]
    · have hzba : ¬ (b.length = 0 ∨ a.length = 0) := fun hh => hz (Or.symm hh)
      rw [if_neg hz, if_neg hzba]
      simp only [Nat.max_comm a.length b.length, levenshteinDistance_symm a b]

/-- The candidate-score list of `calculateMatchScore` is symmetric. -/
theorem matchScoreCandidates_symm (a b : List Char) :
    matchScoreCandidates a b = matchScoreCandidates b a := by
  rw [matchScoreCandidates, matchScoreCandidates]
  have h1 : (normalizeForMatching a = normalizeForMatching b ∧
        2 < (normalizeForMatching a).length) ↔
      (normalizeForMatching b = normalizeForMatching a ∧
        2 < (normalizeForMatching b).length) := by
    constructor <;> rintro ⟨h, hl⟩ <;> exact ⟨h.symm, h ▸ hl⟩
  simp only [h1, calculateSimilarity_symm a b,
    calculateSimilarity_symm (normalizeForMatching a) (normalizeForMatching b),
    calculateSimilarity_symm (normalizeForMatching (dropLeadingNumber a))
      (normalizeForMatching (dropLeadingNumber b))]
  cases hp : leadingDigits a <;> cases hq : leadingDigits b <;> try rfl
  rename_i p q
  dsimp only
  by_cases hpq : p = q
  · rw [if_pos hpq, if_pos hpq.symm]
  · have hqp : ¬ q = p := fun hh => hpq hh.symm
    rw [if_neg hpq, if_neg hqp]

/-- C10: the fuzzy matcher is symmetric in its two names — the edit
distance, the similarity and the full match score are all unchanged when
candidate and catalog entry swap roles. -/
theorem C10_match_scorer_symmetric (a b : List Char) :
    levenshteinDistance a b = levenshteinDistance b a ∧
    calculateSimilarity a b = calculateSimilarity b a ∧
    calculateMatchScore a b = calculateMatchScore b a := by
  refine ⟨levenshteinDistance_symm a b, calculateSimilarity_symm a b, ?_⟩
  rw [calculateMatchScore, calculateMatchScore]
  by_cases h : stripExtStep1 a = stripExtStep1 b
  · rw [if_pos h, if_pos h.symm]
  · rw [if_neg h, if_neg (fun hh => h hh.symm)]
    have hpen : lengthPenalty (normalizeForMatching a) (normalizeForMatching b) =
        lengthPenalty (normalizeForMatching b) (normalizeForMatching a) := by
      rw [lengthPenalty, lengthPenalty]
      simp only [Nat.max_comm (normalizeForMatching a).length
          (normalizeForMatching b).length,
        Nat.min_comm (normalizeForMatching a).length (normalizeForMatching b).length]
    simp only [matchScoreCandidates_symm a b, hpen]

end LedLyrics
